import Mathlib

/-!
Verification development for the simforge Go tracing SDK.

The definitions below are a shallow embedding of the SDK source:
  * span-context stack (span_context.go: currentSpan, withSpanContext),
  * trace state store (span_context.go: getTraceState, createTraceState,
    deleteTraceState, CurrentTrace setters),
  * the generic value serializer (the serializer source file: serializeValue and helpers),
  * the standard-library JSON encoder as used by MarshalSpanPayload,
  * the span engine (simforge.go: Client.Span, Client.Start, ActiveSpan
    mutators and ActiveSpan.End),
  * the HTTP delivery routine (http.go: request with retries).

Go machine state is made explicit: the uuid generator and the wall clock are
modelled as oracle sequences consumed through a counter, the process-wide
trace state store and the list of payloads handed to the delivery subsystem
are threaded as explicit state, and Go panics inside the instrumentation
fault barriers are modelled with `Except` values that the barrier discards,
mirroring the `defer recover()` pattern of the source.
-/

namespace Simforge

/-- One entry of the span context stack (span_context.go, `spanEntry`). -/
structure SpanEntry where
  traceID : String
  spanID  : String
deriving Repr, DecidableEq

/-- The span stack carried in a context value; the last element is the top,
as in the Go slice `[]spanEntry`. -/
abbrev SpanStack := List SpanEntry

/-- Translation of `currentSpan` (span_context.go): the top of the span
stack, or `none` when the stack is empty (`stack[len(stack)-1]`). -/
def currentSpan (stack : SpanStack) : Option SpanEntry :=
  stack.getLast?

/-- Translation of `withSpanContext` (span_context.go): push a new entry on
the stack. The Go code allocates a fresh backing array
(`make` + `copy` + write), never touching the old one; at the level of pure
lists this is an append. -/
def withSpanContext (stack : SpanStack) (traceID spanID : String) : SpanStack :=
  stack ++ [{ traceID := traceID, spanID := spanID }]

/-! Heap-level model of the Go slice discipline used by `withSpanContext`.
A heap is a store of allocated backing arrays; a stack value held by a
context is a reference into that store.  `withSpanContextAlloc` mirrors the
source line by line: it reads the old backing array, allocates a brand new
array one longer, copies the old contents, writes the new entry, and
returns a reference to the new allocation, leaving every existing array
untouched. -/

/-- Store of allocated `[]spanEntry` backing arrays. -/
structure SliceHeap where
  arrays : List (List SpanEntry)
deriving Repr

/-- A context value holding a reference to one allocated backing array. -/
structure StackRef where
  arrId : Nat
deriving Repr, DecidableEq

/-- Dereference a stack value: the backing array it points at (a dangling
reference reads as the empty stack, like a nil Go slice). -/
def SliceHeap.read (h : SliceHeap) (s : StackRef) : List SpanEntry :=
  (h.arrays.getD s.arrId [])

/-- Heap-level translation of `withSpanContext`: `make([]spanEntry, len+1)`
allocates fresh storage, `copy` fills it from the old array, the new entry
is written at the end, and the context receives a reference to the fresh
allocation. -/
def withSpanContextAlloc (h : SliceHeap) (s : StackRef) (traceID spanID : String) :
    SliceHeap × StackRef :=
  let stack := h.read s
  let newArr := stack ++ [{ traceID := traceID, spanID := spanID }]
  ({ arrays := h.arrays ++ [newArr] }, { arrId := h.arrays.length })

/-! Model of Go values and of the generic value serializer (the serializer source file).

A Go `any` value is embedded as the inductive `GoValue`.  Constructors
record which case of the serializer resolution chain the dynamic type of
the value hits first, exactly following the `switch` in `serializeValue`:
primitives (all integer widths already widened as the source does),
`time.Time`, `json.Marshaler`, `error`, `fmt.Stringer`, then the reflective
kinds map / slice / struct / pointer, and finally the unrepresentable
values (functions, channels, ...) that only allow the `fmt.Sprintf("%v")`
text fallback.  A `json.Marshaler` carries the outcome of its
`MarshalJSON` call, the result of re-parsing those bytes (the behaviour of
`json.Unmarshal` on them), and its `%v` text rendering; a struct field
carries its name, the raw `json` tag string (empty when absent, as
`Tag.Get` reports it), its exportedness, and its value.  Floating-point
kinds are left out of the model. -/

/-- Wall-clock instant, the part of `time.Time` the SDK observes (UTC). -/
structure GoTime where
  year : Nat
  month : Nat
  day : Nat
  hour : Nat
  minute : Nat
  second : Nat
  nanos : Nat
deriving Repr, DecidableEq

/-- Left-pad the decimal rendering of `n` with zeros to width `w`. -/
def padNat (w : Nat) (n : Nat) : String :=
  let s := toString n
  String.mk (List.replicate (w - s.length) zeroChar) ++ s
where
  /-- The padding digit. -/
  zeroChar : Char := Char.ofNat 48

/-- The fixed layout `2006-01-02T15:04:05.000Z` used throughout the SDK:
UTC with exactly three fractional digits (milliseconds, truncated). -/
def formatMillisZ (t : GoTime) : String :=
  padNat 4 t.year ++ "-" ++ padNat 2 t.month ++ "-" ++ padNat 2 t.day ++ "T" ++
    padNat 2 t.hour ++ ":" ++ padNat 2 t.minute ++ ":" ++ padNat 2 t.second ++
    "." ++ padNat 3 (t.nanos / 1000000) ++ "Z"

/-- Drop trailing padding-digit characters (used by the RFC 3339 fraction). -/
def trimZeros (s : String) : String :=
  String.mk (((s.data.reverse).dropWhile (fun c => c = padNat.zeroChar)).reverse)

/-- RFC 3339 with nanoseconds as `encoding/json` renders a UTC `time.Time`:
the fraction is omitted when zero and has its trailing zeros trimmed
otherwise. -/
def formatRFC3339Nano (t : GoTime) : String :=
  let base := padNat 4 t.year ++ "-" ++ padNat 2 t.month ++ "-" ++ padNat 2 t.day ++ "T" ++
    padNat 2 t.hour ++ ":" ++ padNat 2 t.minute ++ ":" ++ padNat 2 t.second
  let frac := if t.nanos = 0 then "" else "." ++ trimZeros (padNat 9 t.nanos)
  base ++ frac ++ "Z"

/-- JSON-safe tree: the codomain of the serializer.  Mirrors the values a
decoded `encoding/json` document can take (numbers restricted to the
integral values that appear in this development). -/
inductive Json where
  | jnull
  | jstr (s : String)
  | jbool (b : Bool)
  | jint (n : Int)
  | jarr (xs : List Json)
  | jobj (fields : List (String × Json))
deriving Repr

/-- Shallow embedding of a Go `any` value (see the section comment). -/
inductive GoValue where
  | vnull
  | vstr (s : String)
  | vbool (b : Bool)
  | vint (n : Int)
  | vtime (t : GoTime)
  | vmarshaler (mres : Except String String) (parsed : Option Json) (text : String)
  | verror (msg : String)
  | vstringer (text : String)
  | vmap (entries : List (String × GoValue))
  | vslice (elems : List GoValue)
  | vstruct (fields : List (String × String × Bool × GoValue))
  | vptr (v : Option GoValue)
  | vfunc (text : String)
deriving Repr

/-- Translation of `splitTag` (the serializer source file): split a struct tag on commas;
on the empty string it yields one empty part, like the source loop. -/
def splitTag (tag : String) : List String :=
  tag.splitOn ","

mutual

/-- Translation of `serializeValue` (the serializer source file).  The match arms follow
the source switch in order: primitives pass through (integer widths
already widened), `time.Time` gets the fixed millisecond UTC layout, a
`json.Marshaler` is invoked and its bytes re-parsed (text fallback when
marshalling fails, raw bytes as a string when they do not re-parse), an
`error` contributes its message, a `fmt.Stringer` its rendered text, then
maps, slices and structs recurse, a pointer dereferences (nil becomes
nil), and everything else falls back to its `fmt.Sprintf("%v")` text. -/
def serializeValue : GoValue → Json
  | .vnull => .jnull
  | .vstr s => .jstr s
  | .vbool b => .jbool b
  | .vint n => .jint n
  | .vtime t => .jstr (formatMillisZ t)
  | .vmarshaler mres parsed text =>
    match mres with
    | .error _ => .jstr text
    | .ok bytes =>
      match parsed with
      | some p => p
      | none => .jstr bytes
  | .verror msg => .jstr msg
  | .vstringer text => .jstr text
  | .vmap entries => .jobj (serializeEntries entries)
  | .vslice elems => .jarr (serializeList elems)
  | .vstruct fields => .jobj (serializeFields fields)
  | .vptr none => .jnull
  | .vptr (some v) => serializeValue v
  | .vfunc text => .jstr text

/-- Translation of `serializeMap` (the serializer source file): serialize every value of
the map (keys are already text in the model, as the source coerces them). -/
def serializeEntries : List (String × GoValue) → List (String × Json)
  | [] => []
  | (k, v) :: rest => (k, serializeValue v) :: serializeEntries rest

/-- Translation of `serializeSlice` (the serializer source file): element-wise. -/
def serializeList : List GoValue → List Json
  | [] => []
  | v :: rest => serializeValue v :: serializeList rest

/-- Translation of `serializeStruct` (the serializer source file): unexported fields are
skipped; a `json` tag whose first part is `-` suppresses the field; a
non-empty first part renames it; the field value recurses. -/
def serializeFields : List (String × String × Bool × GoValue) → List (String × Json)
  | [] => []
  | (name, tag, exported, v) :: rest =>
    if exported = false then serializeFields rest
    else if tag ≠ "" ∧ (splitTag tag).headD "" = "-" then serializeFields rest
    else
      let emitted := if tag ≠ "" ∧ (splitTag tag).headD "" ≠ "" then (splitTag tag).headD "" else name
      (emitted, serializeValue v) :: serializeFields rest

end

/-! Model of the standard-library `encoding/json` encoder, as invoked by
`MarshalSpanPayload` (the payload marshalling source file) and hence by `httpClient.request`
(http.go).  The encoder can fail (`json.Marshal` returns an error for
unsupported kinds such as functions), sorts map keys, honours struct
`json` tags including `omitempty`, renders a UTC `time.Time` in RFC 3339
with nanoseconds, and calls `MarshalJSON` on marshaler values.  A
`fmt.Stringer` or `error` value without `MarshalJSON` is marshalled from
its underlying struct; the model fixes the common case of a struct without
exported fields (`errors.New`, small stringer types), which renders as an
empty object.  HTML escaping of `<`, `>`, `&` is not modelled. -/

/-- The double-quote character. -/
def quoteChar : Char := Char.ofNat 34

/-- The backslash character. -/
def backslashChar : Char := Char.ofNat 92

/-- JSON string escaping for one character (quote, backslash, newline and
tab; other characters pass through). -/
def jsonEscapeChar (c : Char) : String :=
  if c = quoteChar then "\\\""
  else if c = backslashChar then "\\\\"
  else if c = Char.ofNat 10 then "\\n"
  else if c = Char.ofNat 9 then "\\t"
  else String.mk [c]

/-- Render a JSON string literal. -/
def jsonQuote (s : String) : String :=
  "\"" ++ String.join (s.data.map jsonEscapeChar) ++ "\""

/-- Insert a rendered key/value pair into a key-sorted list. -/
def insertByKey (x : String × α) : List (String × α) → List (String × α)
  | [] => [x]
  | y :: ys => if x.1 < y.1 then x :: y :: ys else y :: insertByKey x ys

/-- Sort key/value pairs by key, as `encoding/json` sorts map keys. -/
def sortByKey (l : List (String × α)) : List (String × α) :=
  l.foldr insertByKey []

/-- Translation of `encoding/json.isEmptyValue`: false, zero, the empty
string, a nil pointer or interface, and empty maps/slices are empty for
`omitempty` purposes. -/
def isEmptyValue : GoValue → Bool
  | .vbool b => !b
  | .vint n => n = 0
  | .vstr s => s = ""
  | .vptr none => true
  | .vnull => true
  | .vmap [] => true
  | .vslice [] => true
  | _ => false

mutual

/-- Model of `json.Marshal` on an embedded Go value (see the section
comment).  Fails on unrepresentable kinds and on a failing `MarshalJSON`;
sorts map keys; honours `json` tags with `-` suppression, renaming and
`omitempty`; dereferences pointers with nil rendering as `null`. -/
def jsonMarshalGo : GoValue → Except String String
  | .vnull => .ok "null"
  | .vstr s => .ok (jsonQuote s)
  | .vbool b => .ok (if b then "true" else "false")
  | .vint n => .ok (toString n)
  | .vtime t => .ok (jsonQuote (formatRFC3339Nano t))
  | .vmarshaler mres _ _ =>
    match mres with
    | .ok bytes => .ok bytes
    | .error e => .error ("json: error calling MarshalJSON: " ++ e)
  | .verror _ => .ok "\x7b\x7d"
  | .vstringer _ => .ok "\x7b\x7d"
  | .vmap entries =>
    match jsonMarshalEntries entries with
    | .error e => .error e
    | .ok parts =>
      .ok ("\x7b" ++
        String.intercalate ","
          ((sortByKey parts).map (fun kv => jsonQuote kv.1 ++ ":" ++ kv.2)) ++ "\x7d")
  | .vslice elems =>
    match jsonMarshalList elems with
    | .error e => .error e
    | .ok parts => .ok ("[" ++ String.intercalate "," parts ++ "]")
  | .vstruct fields =>
    match jsonMarshalFields fields with
    | .error e => .error e
    | .ok parts => .ok ("\x7b" ++ String.intercalate "," parts ++ "\x7d")
  | .vptr none => .ok "null"
  | .vptr (some v) => jsonMarshalGo v
  | .vfunc _ => .error "json: unsupported type: func()"

/-- Marshal the entries of a map, keeping the key alongside the rendered
value so the enclosing object can be emitted in sorted key order. -/
def jsonMarshalEntries : List (String × GoValue) → Except String (List (String × String))
  | [] => .ok []
  | (k, v) :: rest =>
    match jsonMarshalGo v with
    | .error e => .error e
    | .ok s =>
      match jsonMarshalEntries rest with
      | .error e => .error e
      | .ok tail => .ok ((k, s) :: tail)

/-- Marshal the elements of a slice or array in order. -/
def jsonMarshalList : List GoValue → Except String (List String)
  | [] => .ok []
  | v :: rest =>
    match jsonMarshalGo v with
    | .error e => .error e
    | .ok s =>
      match jsonMarshalList rest with
      | .error e => .error e
      | .ok tail => .ok (s :: tail)

/-- Marshal struct fields in declaration order: unexported fields are
skipped, a tag of exactly `-` suppresses the field, `omitempty` suppresses
empty values, and a non-empty tag name replaces the field name. -/
def jsonMarshalFields : List (String × String × Bool × GoValue) → Except String (List String)
  | [] => .ok []
  | (name, tag, exported, v) :: rest =>
    if exported = false then jsonMarshalFields rest
    else if tag = "-" then jsonMarshalFields rest
    else if ((splitTag tag).drop 1).contains "omitempty" ∧ isEmptyValue v then
      jsonMarshalFields rest
    else
      let key := if tag ≠ "" ∧ (splitTag tag).headD "" ≠ "" then (splitTag tag).headD "" else name
      match jsonMarshalGo v with
      | .error e => .error e
      | .ok s =>
        match jsonMarshalFields rest with
        | .error e => .error e
        | .ok tail => .ok ((jsonQuote key ++ ":" ++ s) :: tail)

end

mutual

/-- Plain encoder for JSON-safe trees, used to state what the wire bytes
of a serialized tree would be (object members in tree order). -/
def jsonEncode : Json → String
  | .jnull => "null"
  | .jstr s => jsonQuote s
  | .jbool b => if b then "true" else "false"
  | .jint n => toString n
  | .jarr xs => "[" ++ String.intercalate "," (jsonEncodeList xs) ++ "]"
  | .jobj fs => "\x7b" ++ String.intercalate "," (jsonEncodeFields fs) ++ "\x7d"

/-- Encode the elements of a JSON array. -/
def jsonEncodeList : List Json → List String
  | [] => []
  | x :: rest => jsonEncode x :: jsonEncodeList rest

/-- Encode the members of a JSON object. -/
def jsonEncodeFields : List (String × Json) → List String
  | [] => []
  | (k, v) :: rest => (jsonQuote k ++ ":" ++ jsonEncode v) :: jsonEncodeFields rest

end

mutual

/-- Reading a JSON-safe tree back as a Go value (what `json.Unmarshal`
into `any` yields: null, string, bool, number, `[]any`, `map[string]any`).
Used to state that the serializer output is always marshalable. -/
def embedJson : Json → GoValue
  | .jnull => .vnull
  | .jstr s => .vstr s
  | .jbool b => .vbool b
  | .jint n => .vint n
  | .jarr xs => .vslice (embedJsonList xs)
  | .jobj fs => .vmap (embedJsonFields fs)

/-- Element-wise embedding of a JSON array. -/
def embedJsonList : List Json → List GoValue
  | [] => []
  | x :: rest => embedJson x :: embedJsonList rest

/-- Member-wise embedding of a JSON object. -/
def embedJsonFields : List (String × Json) → List (String × GoValue)
  | [] => []
  | (k, v) :: rest => (k, embedJson v) :: embedJsonFields rest

end

/-! Trace state store (span_context.go).  The process-wide
`traceStateStore` map is modelled as an association list threaded through
the engine state; the lock discipline of the source collapses in the
sequential model. -/

/-- Translation of `TraceState` (span_context.go): trace-level data
accumulated until the trace completes.  Go zero values: empty session id,
nil metadata map and nil contexts slice are the empty list. -/
structure TraceState where
  traceID : String
  sessionID : String
  metadata : List (String × GoValue)
  contexts : List (List (String × GoValue))
  startedAt : String
deriving Repr

/-- The `traceStateStore.states` map. -/
abbrev TraceStore := List (String × TraceState)

/-- Translation of `getTraceState`: look the trace id up in the store. -/
def getTraceState (store : TraceStore) (traceID : String) : Option TraceState :=
  (store.find? (fun kv => kv.1 = traceID)).map (fun kv => kv.2)

/-- Translation of `createTraceState`: return the existing state if
present, otherwise insert a fresh one whose `started_at` is the current
clock reading. -/
def createTraceState (store : TraceStore) (traceID : String) (now : String) :
    TraceStore × TraceState :=
  match getTraceState store traceID with
  | some ts => (store, ts)
  | none =>
    let ts : TraceState :=
      { traceID := traceID, sessionID := "", metadata := [], contexts := [], startedAt := now }
    ((traceID, ts) :: store, ts)

/-- Translation of `deleteTraceState`: remove the entry for the trace id. -/
def deleteTraceState (store : TraceStore) (traceID : String) : TraceStore :=
  store.filter (fun kv => kv.1 ≠ traceID)

/-- Write-or-append update of a string-keyed association list (one Go map
assignment `m[k] = v`). -/
def assocSet (l : List (String × GoValue)) (k : String) (v : GoValue) :
    List (String × GoValue) :=
  if l.any (fun kv => kv.1 = k) then
    l.map (fun kv => if kv.1 = k then (k, v) else kv)
  else l ++ [(k, v)]

/-- Translation of `CurrentTrace.SetSessionID` (span_context.go): a nil
handle or empty trace id is a no-op; otherwise the trace state is fetched,
created on demand if absent, and its session id overwritten.  The handle
is modelled as `Option String` (`none` is the nil `*CurrentTrace`). -/
def currentTraceSetSessionID (ct : Option String) (sessionID now : String)
    (store : TraceStore) : TraceStore :=
  match ct with
  | none => store
  | some tid =>
    if tid = "" then store
    else
      let store2 := (createTraceState store tid now).1
      store2.map (fun kv =>
        if kv.1 = tid then (kv.1, { kv.2 with sessionID := sessionID }) else kv)

/-! Span engine (simforge.go).  The uuid generator and the clock are
oracle sequences `uuids` / `clock` read through counters in the engine
state; `sent` accumulates every payload handed to
`httpClient.sendExternalSpan` (the fire-and-forget handoff point). -/

/-- SDK version constant (constants.go). -/
def Version : String := "0.6.0"

/-- Default API base URL (constants.go). -/
def DefaultServiceURL : String := "https://simforge.goharvest.ai"

/-- Translation of `validSpanTypes` (constants.go): the backend span-type
enum, as a membership test. -/
def validSpanTypes (t : String) : Bool :=
  t = "llm" || t = "agent" || t = "function" || t = "guardrail" || t = "handoff" || t = "custom"

/-- Translation of `Client` (simforge.go), configuration only. -/
structure Client where
  apiKey : String
  serviceURL : String
  enabled : Bool
deriving Repr, DecidableEq

/-- ASCII whitespace (space, tab, newline, carriage return). -/
def isSpaceChar (c : Char) : Bool :=
  c = Char.ofNat 32 || c = Char.ofNat 9 || c = Char.ofNat 10 || c = Char.ofNat 13

/-- Model of `strings.TrimSpace`: strip leading and trailing whitespace
(ASCII subset of the Unicode space class). -/
def trimSpace (s : String) : String :=
  String.mk (((s.data.dropWhile isSpaceChar).reverse.dropWhile isSpaceChar).reverse)

/-- Translation of `NewClient` (simforge.go): enabled defaults from the
caller, and an enabled client with a blank api key is auto-disabled. -/
def newClient (apiKey serviceURL : String) (enabled : Bool) : Client :=
  let c : Client := { apiKey := apiKey, serviceURL := serviceURL, enabled := enabled }
  if c.enabled ∧ trimSpace c.apiKey = "" then { c with enabled := false } else c

/-- Translation of `spanConfig` (simforge.go), after the option closures
have been folded in (`WithName`, `WithType`, `WithFunctionName`,
`WithInput`, `WithMetadata`); `name` defaults to the trace function key
resp. the span name, `spanType` defaults to `custom`. -/
structure SpanConfig where
  name : String
  spanType : String
  functionName : String
  input : Option GoValue
  metadata : Option (List (String × GoValue))
deriving Repr

/-- The `span_data` map built on completion (keys as in the source). -/
structure SpanData where
  name : String
  type : String
  functionName : Option String
  input : Option GoValue
  output : Option GoValue
  error : Option String
  metadata : Option (List (String × GoValue))
deriving Repr

/-- The `rawSpan` map: `parent_id` is present only when the parent span id
is non-empty. -/
structure RawSpan where
  id : String
  traceId : String
  startedAt : String
  endedAt : String
  spanData : SpanData
  parentId : Option String
deriving Repr

/-- The payload handed to `sendExternalSpan`, after it merges in the
`sdkVersion` field. -/
structure ExternalSpanPayload where
  type : String
  source : String
  sourceTraceId : String
  traceFunctionKey : String
  rawSpan : RawSpan
  sdkVersion : String
deriving Repr

/-- Oracles for the external collaborators: the uuid source and the
wall clock, as sequences indexed by call count. -/
structure Env where
  uuids : Nat → String
  clock : Nat → String

/-- Mutable world threaded through the engine: oracle counters, the
process-wide trace state store, and the payloads handed to delivery. -/
structure EngineState where
  uuidCtr : Nat
  clockCtr : Nat
  store : TraceStore
  sent : List ExternalSpanPayload

/-- One `uuid.New().String()` call. -/
def newUUID (env : Env) (st : EngineState) : String × EngineState :=
  (env.uuids st.uuidCtr, { st with uuidCtr := st.uuidCtr + 1 })

/-- One `time.Now().UTC().Format(...)` call. -/
def nowString (env : Env) (st : EngineState) : String × EngineState :=
  (env.clock st.clockCtr, { st with clockCtr := st.clockCtr + 1 })

/-- Translation of `httpClient.sendExternalSpan` (http.go) at the handoff
level: the payload (with `sdkVersion` merged in) is recorded as handed to
the background delivery goroutine. -/
def sendExternalSpanGo (p : ExternalSpanPayload) (st : EngineState) : EngineState :=
  { st with sent := st.sent ++ [{ p with sdkVersion := Version }] }

/-- The `defer recover()` fault barrier: a panicking body (modelled as
`Except.error`) is discarded, leaving the world as it was. -/
def faultBarrier (body : Except String EngineState) (st : EngineState) : EngineState :=
  match body with
  | .ok st2 => st2
  | .error _ => st

/-- Translation of `Client.Span` (simforge.go).  `fn` is the wrapped
callback: it receives the child context stack and the threaded world and
returns the `(result, error)` pair.  `fault` injects a panic into the
recover-wrapped record-assembly/delivery closure (`none` means the closure
runs to completion). -/
def spanGo (env : Env) (c : Client) (traceFunctionKey : String)
    (fn : SpanStack → EngineState → (Option GoValue × Option String) × EngineState)
    (cfg : SpanConfig) (fault : Option String) (stack : SpanStack) (st : EngineState) :
    (Option GoValue × Option String) × EngineState :=
  if c.enabled = false then fn stack st
  else if validSpanTypes cfg.spanType = false then
    ((none, some ("simforge: invalid span type \"" ++ cfg.spanType ++
      "\", must be one of: llm, agent, function, guardrail, handoff, custom")), st)
  else
    let parent := currentSpan stack
    let (tid0, st) := newUUID env st
    let traceID := match parent with | some p => p.traceID | none => tid0
    let (spanID, st) := newUUID env st
    let parentSpanID := match parent with | some p => p.spanID | none => ""
    let (startedAt, st) := nowString env st
    let childStack := withSpanContext stack traceID spanID
    let fnOut := fn childStack st
    let result := fnOut.1.1
    let fnErr := fnOut.1.2
    let st := fnOut.2
    let (endedAt, st) := nowString env st
    let spanData : SpanData :=
      { name := cfg.name, type := cfg.spanType,
        functionName := if cfg.functionName ≠ "" then some cfg.functionName else none,
        input := cfg.input, output := result, error := fnErr, metadata := cfg.metadata }
    let rawSpan : RawSpan :=
      { id := spanID, traceId := traceID, startedAt := startedAt, endedAt := endedAt,
        spanData := spanData,
        parentId := if parentSpanID ≠ "" then some parentSpanID else none }
    let payload : ExternalSpanPayload :=
      { type := "sdk-function", source := "go-sdk-function", sourceTraceId := traceID,
        traceFunctionKey := traceFunctionKey, rawSpan := rawSpan, sdkVersion := "" }
    let st := faultBarrier
      (match fault with
       | some msg => .error msg
       | none => .ok (sendExternalSpanGo payload st)) st
    ((result, fnErr), st)

/-- Translation of `ActiveSpan` (simforge.go).  `client = none` is the nil
client of the zero value returned by a disabled `Start`; `once` is the
done flag of the `sync.Once` guard. -/
structure ActiveSpanState where
  client : Option Client
  traceFunctionKey : String
  traceID : String
  spanID : String
  parentSpanID : String
  startedAt : String
  cfg : SpanConfig
  input : Option GoValue
  output : Option GoValue
  spanErr : Option String
  metadata : Option (List (String × GoValue))
  once : Bool
deriving Repr

/-- The zero `spanConfig`. -/
def zeroSpanConfig : SpanConfig :=
  { name := "", spanType := "", functionName := "", input := none, metadata := none }

/-- The zero `ActiveSpan` (`&ActiveSpan{}` returned by a disabled Start). -/
def zeroActiveSpan : ActiveSpanState :=
  { client := none, traceFunctionKey := "", traceID := "", spanID := "", parentSpanID := "",
    startedAt := "", cfg := zeroSpanConfig, input := none, output := none, spanErr := none,
    metadata := none, once := false }

/-- Translation of `Client.Start` (simforge.go): a disabled client returns
the unchanged context and the zero span; otherwise ids are decided exactly
as in `Client.Span`, the child stack is pushed, and the handle records the
start timestamp.  `cfg` is the folded option set with `name` defaulting to
the span name argument. -/
def startGo (env : Env) (c : Client) (traceFunctionKey : String) (cfg : SpanConfig)
    (stack : SpanStack) (st : EngineState) : SpanStack × ActiveSpanState × EngineState :=
  if c.enabled = false then (stack, zeroActiveSpan, st)
  else
    let parent := currentSpan stack
    let (tid0, st) := newUUID env st
    let traceID := match parent with | some p => p.traceID | none => tid0
    let (spanID, st) := newUUID env st
    let parentSpanID := match parent with | some p => p.spanID | none => ""
    let childStack := withSpanContext stack traceID spanID
    let (startedAt, st) := nowString env st
    (childStack,
     { client := some c, traceFunctionKey := traceFunctionKey, traceID := traceID,
       spanID := spanID, parentSpanID := parentSpanID, startedAt := startedAt, cfg := cfg,
       input := none, output := none, spanErr := none, metadata := none, once := false },
     st)

/-- Translation of `ActiveSpan.SetInput`: one argument is stored directly,
several as a slice; on the nil receiver the field write panics and the
deferred recover makes the call a no-op. -/
def setInputGo (s : Option ActiveSpanState) (args : List GoValue) : Option ActiveSpanState :=
  match s with
  | none => none
  | some sp =>
    if args.length = 1 then some { sp with input := some (args.headD .vnull) }
    else some { sp with input := some (.vslice args) }

/-- Translation of `ActiveSpan.SetOutput` (nil-receiver no-op as above). -/
def setOutputGo (s : Option ActiveSpanState) (output : Option GoValue) : Option ActiveSpanState :=
  match s with
  | none => none
  | some sp => some { sp with output := output }

/-- Translation of `ActiveSpan.SetError` (nil-receiver no-op as above). -/
def setErrorGo (s : Option ActiveSpanState) (err : Option String) : Option ActiveSpanState :=
  match s with
  | none => none
  | some sp => some { sp with spanErr := err }

/-- Translation of `ActiveSpan.SetMetadata`: nil argument is a no-op, the
runtime metadata map is allocated on demand, and entries merge with later
values winning (nil-receiver no-op as above). -/
def setMetadataGo (s : Option ActiveSpanState) (metadata : Option (List (String × GoValue))) :
    Option ActiveSpanState :=
  match s with
  | none => none
  | some sp =>
    match metadata with
    | none => some sp
    | some m =>
      let base := match sp.metadata with | none => [] | some l => l
      some { sp with metadata := some (m.foldl (fun acc kv => assocSet acc kv.1 kv.2) base) }

/-- The metadata merge performed by `ActiveSpan.End`: nothing when both
maps are nil, otherwise config entries first and runtime entries after,
the runtime value winning on key collision. -/
def mergeMetadata (cfgMeta runtimeMeta : Option (List (String × GoValue))) :
    Option (List (String × GoValue)) :=
  match cfgMeta, runtimeMeta with
  | none, none => none
  | _, _ =>
    let merged := (cfgMeta.getD []).foldl (fun acc kv => assocSet acc kv.1 kv.2) []
    some ((runtimeMeta.getD []).foldl (fun acc kv => assocSet acc kv.1 kv.2) merged)

/-- The record `ActiveSpan.End` assembles inside its `sync.Once` body:
`span_data` from the accumulated input/output/error/function name with
the config/runtime metadata merge, wrapped in the `rawSpan` envelope
(`parent_id` only when the parent span id is non-empty). -/
def endPayload (sp : ActiveSpanState) (endedAt : String) : ExternalSpanPayload :=
  let spanData : SpanData :=
    { name := sp.cfg.name, type := sp.cfg.spanType,
      functionName := if sp.cfg.functionName ≠ "" then some sp.cfg.functionName else none,
      input := sp.input, output := sp.output, error := sp.spanErr,
      metadata := mergeMetadata sp.cfg.metadata sp.metadata }
  let rawSpan : RawSpan :=
    { id := sp.spanID, traceId := sp.traceID, startedAt := sp.startedAt,
      endedAt := endedAt, spanData := spanData,
      parentId := if sp.parentSpanID ≠ "" then some sp.parentSpanID else none }
  { type := "sdk-function", source := "go-sdk-function", sourceTraceId := sp.traceID,
    traceFunctionKey := sp.traceFunctionKey, rawSpan := rawSpan, sdkVersion := "" }

/-- Translation of the control flow of `ActiveSpan.End` (simforge.go):
the nil receiver panics on the client check and is absorbed by the
deferred recover; a span with no client (zero value) returns at the
guard; the `sync.Once` body runs at most once, stamping `ended_at` and
handing the payload to `sendExternalSpan`.  The store is visible in the
state solely to record that `End` never touches it. -/
def endGo (env : Env) (s : Option ActiveSpanState) (st : EngineState) :
    Option ActiveSpanState × EngineState :=
  match s with
  | none => (none, st)
  | some sp =>
    if sp.client.isNone then (some sp, st)
    else if sp.once then (some sp, st)
    else
      let sp2 := { sp with once := true }
      let (endedAt, st) := nowString env st
      (some sp2, sendExternalSpanGo (endPayload sp endedAt) st)

/-- Iterated completion calls (1st, 2nd, 3rd, ... `End`). -/
def endIter (env : Env) : Nat → Option ActiveSpanState × EngineState →
    Option ActiveSpanState × EngineState
  | 0, p => p
  | n + 1, p => endIter env n (endGo env p.1 p.2)

/-! Delivery subsystem (http.go).  `httpClient.request` marshals the
payload once, then loops up to `maxRetries` attempts, sleeping
`retryDelay` before every attempt but the first.  The network is an
oracle mapping the attempt index to its outcome; `json.Unmarshal` of a
response body is modelled by the `errField` / `urlField` projections of
the response (the `error` and `url` string members when the body parses
as an object, `none` otherwise). -/

/-- Translation of `requestConfig` (http.go).  Durations are abstract
numbers; request defaults are `timeout 0`, one attempt, and a small fixed
delay. -/
structure RequestConfig where
  timeout : Nat
  maxRetries : Nat
  retryDelay : Nat
deriving Repr

/-- One HTTP response as the source observes it: status, raw body, and
the parsed `error` / `url` string fields when present. -/
structure HttpResponse where
  status : Nat
  body : String
  errField : Option String
  urlField : Option String
deriving Repr

/-- Outcome of one `client.Do` call. -/
inductive AttemptOutcome where
  | transportError (msg : String)
  | response (r : HttpResponse)
deriving Repr

/-- Observable outcome of one `request` call: the returned error (`none`
is a nil error), how many attempts ran, the total time slept between
attempts, and the marshalled body given to every attempt (`none` when
marshalling failed before any attempt). -/
structure RequestTrace where
  result : Option String
  attemptsMade : Nat
  totalWait : Nat
  sentBody : Option String
deriving Repr, DecidableEq

/-- The non-2xx error message built by `request`. -/
def httpErrMsg (status : Nat) (body : String) : String :=
  "simforge: HTTP " ++ toString status ++ ": " ++ body

/-- The retry loop of `request` (http.go), recursing on the remaining
attempt budget: sleep before every attempt but the first; a transport
error or a non-2xx status stores the error and retries; a 2xx response
returns at once — as an application-level error when the body carries an
`error` field (with the configuration-URL hint when a `url` field is also
present), as success otherwise; an exhausted budget returns the last
stored error. -/
def requestLoop (serviceURL : String) (cfg : RequestConfig) (outcomes : Nat → AttemptOutcome)
    (body : String) : Nat → Nat → Option String → Nat → RequestTrace
  | 0, attempt, lastErr, waited =>
    { result := lastErr, attemptsMade := attempt, totalWait := waited, sentBody := some body }
  | remaining + 1, attempt, _lastErr, waited =>
    let waited := if attempt > 0 then waited + cfg.retryDelay else waited
    match outcomes attempt with
    | .transportError msg =>
      requestLoop serviceURL cfg outcomes body remaining (attempt + 1) (some msg) waited
    | .response r =>
      if r.status < 200 ∨ 300 ≤ r.status then
        requestLoop serviceURL cfg outcomes body remaining (attempt + 1)
          (some (httpErrMsg r.status r.body)) waited
      else
        match r.errField with
        | some errMsg =>
          match r.urlField with
          | some url =>
            { result := some (errMsg ++ " Configure it at: " ++ serviceURL ++ url),
              attemptsMade := attempt + 1, totalWait := waited, sentBody := some body }
          | none =>
            { result := some errMsg, attemptsMade := attempt + 1, totalWait := waited,
              sentBody := some body }
        | none =>
          { result := none, attemptsMade := attempt + 1, totalWait := waited,
            sentBody := some body }

/-- Translation of `httpClient.request` (http.go): marshal the payload
through `MarshalSpanPayload` (i.e. `json.Marshal`), return the marshal
error without any attempt on failure, and run the retry loop otherwise. -/
def requestGo (serviceURL : String) (cfg : RequestConfig) (outcomes : Nat → AttemptOutcome)
    (payload : GoValue) : RequestTrace :=
  match jsonMarshalGo payload with
  | .error e =>
    { result := some ("simforge: failed to marshal payload: " ++ e), attemptsMade := 0,
      totalWait := 0, sentBody := none }
  | .ok body => requestLoop serviceURL cfg outcomes body cfg.maxRetries 0 none 0

/-- An attempt outcome that makes the loop retry: a transport error or a
response outside the 2xx window. -/
def attemptFails : AttemptOutcome → Bool
  | .transportError _ => true
  | .response r => if r.status < 200 ∨ 300 ≤ r.status then true else false

/-- The error the loop stores for a failing attempt: the transport error
itself, or the formatted non-2xx message. -/
def attemptErrMsg : AttemptOutcome → String
  | .transportError msg => msg
  | .response r => httpErrMsg r.status r.body

/-- The error `request` returns for a 2xx response: the body's `error`
field when present (with the configuration-URL hint when a `url` field
accompanies it), and a nil error otherwise. -/
def responseResult (serviceURL : String) : AttemptOutcome → Option String
  | .transportError _ => none
  | .response r =>
    match r.errField with
    | some errMsg =>
      match r.urlField with
      | some u => some (errMsg ++ " Configure it at: " ++ serviceURL ++ u)
      | none => some errMsg
    | none => none

/-- Total sleep accumulated by `count` loop iterations starting at the
given attempt index: every iteration but a leading zeroth one sleeps
`retryDelay`. -/
def waitSum (cfg : RequestConfig) : Nat → Nat → Nat
  | _, 0 => 0
  | attempt, k + 1 =>
    (if attempt > 0 then cfg.retryDelay else 0) + waitSum cfg (attempt + 1) k

/-! Concrete fixtures used to instantiate theorems with hypotheses. -/

/-- A lowercase letter used to build concrete unique ids. -/
def aChar : Char := Char.ofNat 97

/-- A concrete injective id source: `n` copies of one letter. -/
def genUUIDs : Nat → String := fun n => String.mk (List.replicate n aChar)

/-- A concrete collaborator environment. -/
def envW : Env := { uuids := genUUIDs, clock := fun _ => "2024-01-01T00:00:00.000Z" }

/-- A concrete enabled client. -/
def clientW : Client := { apiKey := "k", serviceURL := DefaultServiceURL, enabled := true }

/-- A concrete span configuration with a valid type. -/
def cfgW : SpanConfig :=
  { name := "ProcessOrder", spanType := "custom", functionName := "", input := none,
    metadata := none }

/-- A fresh engine state. -/
def stW : EngineState := { uuidCtr := 0, clockCtr := 0, store := [], sent := [] }

/-- A concrete trace state entry. -/
def tsW : TraceState :=
  { traceID := "t0", sessionID := "", metadata := [], contexts := [],
    startedAt := "2024-01-01T00:00:00.000Z" }

/-- An engine state whose store holds the entry for trace `t0`. -/
def stStoreW : EngineState := { uuidCtr := 0, clockCtr := 0, store := [("t0", tsW)], sent := [] }

/-- A concrete wrapped callback returning a value and no error. -/
def fnW : SpanStack → EngineState → (Option GoValue × Option String) × EngineState :=
  fun _ st => ((some (.vstr "out"), none), st)

/-- A live root `ActiveSpan` over `clientW`, not yet ended. -/
def spW : ActiveSpanState :=
  { zeroActiveSpan with
    client := some clientW
    traceFunctionKey := "k"
    traceID := "t0"
    spanID := "s1"
    startedAt := "2024-01-01T00:00:00.000Z" }

/-- The raw span record of the C3 counterexample: a span record whose
`output` is a raw `time.Time` application value. -/
def payloadC3 : GoValue := .vmap [("output", .vtime ⟨2024, 1, 15, 10, 30, 0, 0⟩)]

/-- A network oracle answering every attempt with a plain 2xx. -/
def okOutcomes : Nat → AttemptOutcome := fun _ => .response ⟨200, "", none, none⟩

/-- A network oracle for the C9 witness: a transport failure, then a 2xx
whose body carries an `error` and a `url` field. -/
def outsC9 : Nat → AttemptOutcome := fun i =>
  if i = 0 then .transportError "dial tcp: connection refused"
  else .response { status := 200, body := "", errField := some "invalid project",
                   urlField := some "/settings" }

/-- A concrete parent span entry. -/
def parentW : SpanEntry := { traceID := "tp", spanID := "sp" }

/-- A context stack with `parentW` on top. -/
def stackW : SpanStack := [parentW]

/-- A concrete one-array slice heap. -/
def heapW : SliceHeap := { arrays := [[{ traceID := "t", spanID := "s" }]] }

/-- A reference to the allocated array of `heapW`. -/
def refW : StackRef := { arrId := 0 }

/-! Theorems. -/

/-- The concrete id source is injective: unique id generation. -/
theorem genUUIDs_injective : Function.Injective genUUIDs := by
  intro a b hab
  have hlen := congrArg (fun s => s.data.length) hab
  simpa [genUUIDs] using hlen

/-- Claim C7: pushing a span entry allocates fresh storage and never
mutates the existing stack — after a push through a valid stack
reference, the original reference still reads the old stack, the new
reference is a different allocation whose top is exactly the pushed
entry, a context with an empty stack has no current span, and at the pure
level the pushed stack's top is the new entry. -/
theorem c7_push_never_mutates (h : SliceHeap) (s : StackRef) (traceID spanID : String)
    (hvalid : s.arrId < h.arrays.length) :
    (withSpanContextAlloc h s traceID spanID).1.read s = h.read s ∧
    (withSpanContextAlloc h s traceID spanID).2.arrId ≠ s.arrId ∧
    currentSpan ((withSpanContextAlloc h s traceID spanID).1.read
        (withSpanContextAlloc h s traceID spanID).2) =
      some { traceID := traceID, spanID := spanID } ∧
    currentSpan ([] : SpanStack) = none ∧
    ∀ stack : SpanStack, currentSpan (withSpanContext stack traceID spanID) =
      some { traceID := traceID, spanID := spanID } := by
  refine ⟨?_, ?_, ?_, rfl, ?_⟩
  · simp only [withSpanContextAlloc, SliceHeap.read, List.getD_eq_getElem?_getD]
    rw [List.getElem?_append_left hvalid]
  · simp only [withSpanContextAlloc]
    omega
  · simp only [withSpanContextAlloc, SliceHeap.read, List.getD_eq_getElem?_getD,
      List.getElem?_concat_length, Option.getD_some, currentSpan, List.getLast?_concat]
  · intro stack
    simp [currentSpan, withSpanContext, List.getLast?_concat]

/-- Witness for C7 at a concrete heap holding one allocated stack. -/
theorem c7_push_never_mutates_witness :
    refW.arrId < heapW.arrays.length ∧
    ((withSpanContextAlloc heapW refW "t" "s2").1.read refW = heapW.read refW ∧
     (withSpanContextAlloc heapW refW "t" "s2").2.arrId ≠ refW.arrId ∧
     currentSpan ((withSpanContextAlloc heapW refW "t" "s2").1.read
        (withSpanContextAlloc heapW refW "t" "s2").2) =
       some { traceID := "t", spanID := "s2" } ∧
     currentSpan ([] : SpanStack) = none ∧
     ∀ stack : SpanStack, currentSpan (withSpanContext stack "t" "s2") =
       some { traceID := "t", spanID := "s2" }) :=
  ⟨by decide, c7_push_never_mutates heapW refW "t" "s2" (by decide)⟩

/-- Claim C10: completion and mutation are safe on the degenerate
handles — `End` on the nil `*ActiveSpan` and on the zero-value span
returned by a disabled `Start` returns without delivering anything, and
every mutator is a guarded no-op on the nil receiver and a plain field
update (no fault, no delivery) on the zero-value span. -/
theorem c10_zero_span_safe (env : Env) (st : EngineState) (args : List GoValue)
    (out : Option GoValue) (err : Option String) (m : List (String × GoValue))
    (key : String) (cfg : SpanConfig) (stack : SpanStack) :
    (startGo env (newClient "" DefaultServiceURL true) key cfg stack st).2.1 =
      zeroActiveSpan ∧
    endGo env none st = (none, st) ∧
    endGo env (some zeroActiveSpan) st = (some zeroActiveSpan, st) ∧
    setInputGo none args = none ∧
    setOutputGo none out = none ∧
    setErrorGo none err = none ∧
    setMetadataGo none (some m) = none ∧
    (setInputGo (some zeroActiveSpan) args).isSome = true ∧
    (setOutputGo (some zeroActiveSpan) out).isSome = true ∧
    (setErrorGo (some zeroActiveSpan) err).isSome = true ∧
    (setMetadataGo (some zeroActiveSpan) (some m)).isSome = true := by
  refine ⟨rfl, rfl, ?_, rfl, rfl, rfl, rfl, ?_, rfl, rfl, rfl⟩
  · simp [endGo, zeroActiveSpan]
  · by_cases hl : args.length = 1 <;> simp [setInputGo, hl]

/-- Claim C4: for an enabled client and a valid span type, `Client.Span`
returns exactly the `(result, error)` pair produced by the wrapped
callback, for every fault the recover barrier may absorb during record
assembly or delivery handoff. -/
theorem c4_span_returns_fn_result (env : Env) (c : Client) (key : String)
    (fn : SpanStack → EngineState → (Option GoValue × Option String) × EngineState)
    (cfg : SpanConfig) (fault : Option String) (stack : SpanStack) (st : EngineState)
    (hen : c.enabled = true) (hty : validSpanTypes cfg.spanType = true) :
    (spanGo env c key fn cfg fault stack st).1 =
      (fn (withSpanContext stack
            (match currentSpan stack with | some p => p.traceID | none => env.uuids st.uuidCtr)
            (env.uuids (st.uuidCtr + 1)))
          { st with uuidCtr := st.uuidCtr + 1 + 1, clockCtr := st.clockCtr + 1 }).1 := by
  simp only [spanGo, hen, hty, Bool.true_eq_false, if_false, newUUID, nowString,
    sendExternalSpanGo, faultBarrier]

/-- Witness for C4: the callback result passes through unchanged even
when the assembly closure panics. -/
theorem c4_span_returns_fn_result_witness :
    clientW.enabled = true ∧ validSpanTypes cfgW.spanType = true ∧
    (spanGo envW clientW "k" fnW cfgW (some "boom") [] stW).1 =
      (fnW (withSpanContext []
            (match currentSpan [] with | some p => p.traceID | none => envW.uuids stW.uuidCtr)
            (envW.uuids (stW.uuidCtr + 1)))
          { stW with uuidCtr := stW.uuidCtr + 1 + 1, clockCtr := stW.clockCtr + 1 }).1 :=
  ⟨by decide, by decide,
   c4_span_returns_fn_result envW clientW "k" fnW cfgW (some "boom") [] stW
     (by decide) (by decide)⟩

/-- A span whose completion guard has already fired ignores any further
`End` call (client check and `sync.Once` guard). -/
theorem endGo_once_done (env : Env) (sp : ActiveSpanState) (st : EngineState)
    (h : sp.once = true) : endGo env (some sp) st = (some sp, st) := by
  by_cases hc : sp.client.isNone <;> simp [endGo, hc, h]

/-- Iterating `End` on a span whose guard has fired changes nothing. -/
theorem endIter_once_done (env : Env) (sp : ActiveSpanState) (st : EngineState)
    (h : sp.once = true) : ∀ n, endIter env n (some sp, st) = (some sp, st) := by
  intro n
  induction n with
  | zero => rfl
  | succ n ih => simp [endIter, endGo_once_done env sp st h, ih]

/-- After the first `End` of a live span, every further `End` is a no-op. -/
theorem endIter_after_end (env : Env) (sp : ActiveSpanState) (st : EngineState)
    (hclient : sp.client.isNone = false) (honce : sp.once = false) :
    ∀ m, endIter env m (endGo env (some sp) st) = endGo env (some sp) st := by
  intro m
  have h1 : (endGo env (some sp) st).1 = some { sp with once := true } := by
    simp [endGo, hclient, honce, nowString]
  rcases hE : endGo env (some sp) st with ⟨s1, st1⟩
  rw [hE] at h1
  simp only at h1
  subst h1
  exact endIter_once_done env _ st1 (by simp) m

/-- Claim C5: completing a live span any number `n ≥ 1` of times behaves
exactly like the first completion, and that first completion hands
exactly one span payload to delivery — the `sync.Once` guard makes every
later call a no-op. -/
theorem c5_end_exactly_once (env : Env) (sp : ActiveSpanState) (st : EngineState) (n : Nat)
    (hclient : sp.client.isNone = false) (honce : sp.once = false) (hn : 1 ≤ n) :
    endIter env n (some sp, st) = endGo env (some sp) st ∧
    ∃ pl, (endGo env (some sp) st).2.sent = st.sent ++ [pl] := by
  obtain ⟨m, rfl⟩ : ∃ m, n = m + 1 := ⟨n - 1, by omega⟩
  constructor
  · simp only [endIter]
    exact endIter_after_end env sp st hclient honce m
  · refine ⟨{ endPayload sp (env.clock st.clockCtr) with sdkVersion := Version }, ?_⟩
    simp [endGo, hclient, honce, nowString, sendExternalSpanGo]

/-- Witness for C5: three `End` calls on a live span behave as one. -/
theorem c5_end_exactly_once_witness :
    spW.client.isNone = false ∧ spW.once = false ∧ 1 ≤ 3 ∧
    (endIter envW 3 (some spW, stW) = endGo envW (some spW) stW ∧
     ∃ pl, (endGo envW (some spW) stW).2.sent = stW.sent ++ [pl]) :=
  ⟨by decide, by decide, by decide,
   c5_end_exactly_once envW spW stW 3 (by decide) (by decide) (by decide)⟩

/-- Claim C1 (divergence record): completing a live root span (empty
parent span id) hands exactly one record to delivery — the span record
itself, whose `rawSpan` has no `parent_id` — and leaves the trace state
store exactly as it was: no trace-completion record is built and the
trace's store entry is not deleted. -/
theorem c1_root_end_leaves_store (env : Env) (sp : ActiveSpanState) (st : EngineState)
    (hclient : sp.client.isNone = false) (honce : sp.once = false)
    (hroot : sp.parentSpanID = "") :
    (endGo env (some sp) st).2.store = st.store ∧
    (endGo env (some sp) st).2.sent =
      st.sent ++ [{ endPayload sp (env.clock st.clockCtr) with sdkVersion := Version }] ∧
    (endPayload sp (env.clock st.clockCtr)).rawSpan.parentId = none := by
  refine ⟨?_, ?_, ?_⟩ <;>
    simp [endGo, hclient, honce, nowString, sendExternalSpanGo, endPayload, hroot]

/-- Witness for C1: ending the live root span `spW` over a store that
holds the entry for its trace leaves that entry in place and delivers a
single parentless span record. -/
theorem c1_root_end_leaves_store_witness :
    spW.client.isNone = false ∧ spW.once = false ∧ spW.parentSpanID = "" ∧
    ((endGo envW (some spW) stStoreW).2.store = stStoreW.store ∧
     (endGo envW (some spW) stStoreW).2.sent =
       stStoreW.sent ++
         [{ endPayload spW (envW.clock stStoreW.clockCtr) with sdkVersion := Version }] ∧
     (endPayload spW (envW.clock stStoreW.clockCtr)).rawSpan.parentId = none) :=
  ⟨by decide, by decide, by decide,
   c1_root_end_leaves_store envW spW stStoreW (by decide) (by decide) (by decide)⟩

/-- Claim C2 (divergence record): creating a root span — `Start` or
`Span` on an empty context stack with an enabled client — leaves the
trace state store exactly as it was; in particular, when no entry exists
for the freshly minted trace id, none is created at creation time. -/
theorem c2_root_creation_leaves_store (env : Env) (c : Client) (key : String)
    (cfg : SpanConfig) (fault : Option String) (st : EngineState)
    (hen : c.enabled = true) (hty : validSpanTypes cfg.spanType = true) :
    (startGo env c key cfg [] st).2.2.store = st.store ∧
    getTraceState (startGo env c key cfg [] st).2.2.store (env.uuids st.uuidCtr) =
      getTraceState st.store (env.uuids st.uuidCtr) ∧
    (spanGo env c key (fun _ s => ((none, none), s)) cfg fault [] st).2.store = st.store := by
  refine ⟨?_, ?_, ?_⟩
  · simp [startGo, hen, newUUID, nowString]
  · simp [startGo, hen, newUUID, nowString]
  · cases fault <;>
      simp [spanGo, hen, hty, newUUID, nowString, faultBarrier, sendExternalSpanGo]

/-- Witness for C2: a root span created over the empty store leaves the
store empty — `getTraceState` still misses for the minted trace id. -/
theorem c2_root_creation_leaves_store_witness :
    clientW.enabled = true ∧ validSpanTypes cfgW.spanType = true ∧
    ((startGo envW clientW "k" cfgW [] stW).2.2.store = stW.store ∧
     getTraceState (startGo envW clientW "k" cfgW [] stW).2.2.store (envW.uuids stW.uuidCtr) =
       getTraceState stW.store (envW.uuids stW.uuidCtr) ∧
     (spanGo envW clientW "k" (fun _ s => ((none, none), s)) cfgW none [] stW).2.store =
       stW.store) :=
  ⟨by decide, by decide,
   c2_root_creation_leaves_store envW clientW "k" cfgW none stW (by decide) (by decide)⟩

/-- Claim C6: span identity assignment — with a current span `p` on the
stack, both `Start` and `Span` inherit `p`'s trace id, record `p`'s span
id as the parent id, and mint a fresh span id; on an empty stack a fresh
trace id is minted and the parent id is absent; and under injective id
generation two root spans created in sequence receive different trace
ids. -/
theorem c6_id_assignment (env : Env) (c : Client) (key : String) (cfg : SpanConfig)
    (fn : SpanStack → EngineState → (Option GoValue × Option String) × EngineState)
    (p : SpanEntry) (stack : SpanStack) (st : EngineState)
    (hen : c.enabled = true) (hty : validSpanTypes cfg.spanType = true)
    (hpar : currentSpan stack = some p) (hpnz : p.spanID ≠ "")
    (hinj : Function.Injective env.uuids) :
    ((startGo env c key cfg stack st).2.1.traceID = p.traceID ∧
     (startGo env c key cfg stack st).2.1.parentSpanID = p.spanID ∧
     (startGo env c key cfg stack st).2.1.spanID = env.uuids (st.uuidCtr + 1)) ∧
    ((startGo env c key cfg [] st).2.1.traceID = env.uuids st.uuidCtr ∧
     (startGo env c key cfg [] st).2.1.parentSpanID = "" ∧
     (startGo env c key cfg [] st).2.1.spanID = env.uuids (st.uuidCtr + 1)) ∧
    (((spanGo env c key fn cfg none stack st).2.sent).getLast?.map
        (fun pl => pl.rawSpan.traceId) = some p.traceID ∧
     ((spanGo env c key fn cfg none stack st).2.sent).getLast?.map
        (fun pl => pl.rawSpan.parentId) = some (some p.spanID) ∧
     ((spanGo env c key fn cfg none stack st).2.sent).getLast?.map
        (fun pl => pl.rawSpan.id) = some (env.uuids (st.uuidCtr + 1)) ∧
     ((spanGo env c key fn cfg none stack st).2.sent).getLast?.map
        (fun pl => pl.sourceTraceId) = some p.traceID) ∧
    (((spanGo env c key fn cfg none [] st).2.sent).getLast?.map
        (fun pl => pl.rawSpan.traceId) = some (env.uuids st.uuidCtr) ∧
     ((spanGo env c key fn cfg none [] st).2.sent).getLast?.map
        (fun pl => pl.rawSpan.parentId) = some none ∧
     ((spanGo env c key fn cfg none [] st).2.sent).getLast?.map
        (fun pl => pl.rawSpan.id) = some (env.uuids (st.uuidCtr + 1))) ∧
    (startGo env c key cfg [] st).2.1.traceID ≠
      (startGo env c key cfg [] (startGo env c key cfg [] st).2.2).2.1.traceID := by
  refine ⟨?_, ?_, ?_, ?_, ?_⟩
  · simp [startGo, hen, hpar, newUUID, nowString]
  · simp [startGo, hen, currentSpan, newUUID, nowString]
  · refine ⟨?_, ?_, ?_, ?_⟩ <;>
      simp [spanGo, hen, hty, hpar, hpnz, newUUID, nowString, faultBarrier,
        sendExternalSpanGo, List.getLast?_concat]
  · refine ⟨?_, ?_, ?_⟩ <;>
      simp [spanGo, hen, hty, currentSpan, newUUID, nowString, faultBarrier,
        sendExternalSpanGo, List.getLast?_concat]
  · simp only [startGo, hen, Bool.true_eq_false, if_false, currentSpan, newUUID, nowString]
    intro heq
    have := hinj heq
    omega

/-- Witness for C6 at the concrete environment, a one-entry stack and
the empty stack. -/
theorem c6_id_assignment_witness :
    clientW.enabled = true ∧ validSpanTypes cfgW.spanType = true ∧
    currentSpan stackW = some parentW ∧ parentW.spanID ≠ "" ∧
    Function.Injective envW.uuids ∧
    (((startGo envW clientW "k" cfgW stackW stW).2.1.traceID = parentW.traceID ∧
      (startGo envW clientW "k" cfgW stackW stW).2.1.parentSpanID = parentW.spanID ∧
      (startGo envW clientW "k" cfgW stackW stW).2.1.spanID = envW.uuids (stW.uuidCtr + 1)) ∧
     ((startGo envW clientW "k" cfgW [] stW).2.1.traceID = envW.uuids stW.uuidCtr ∧
      (startGo envW clientW "k" cfgW [] stW).2.1.parentSpanID = "" ∧
      (startGo envW clientW "k" cfgW [] stW).2.1.spanID = envW.uuids (stW.uuidCtr + 1)) ∧
     (((spanGo envW clientW "k" fnW cfgW none stackW stW).2.sent).getLast?.map
         (fun pl => pl.rawSpan.traceId) = some parentW.traceID ∧
      ((spanGo envW clientW "k" fnW cfgW none stackW stW).2.sent).getLast?.map
         (fun pl => pl.rawSpan.parentId) = some (some parentW.spanID) ∧
      ((spanGo envW clientW "k" fnW cfgW none stackW stW).2.sent).getLast?.map
         (fun pl => pl.rawSpan.id) = some (envW.uuids (stW.uuidCtr + 1)) ∧
      ((spanGo envW clientW "k" fnW cfgW none stackW stW).2.sent).getLast?.map
         (fun pl => pl.sourceTraceId) = some parentW.traceID) ∧
     (((spanGo envW clientW "k" fnW cfgW none [] stW).2.sent).getLast?.map
         (fun pl => pl.rawSpan.traceId) = some (envW.uuids stW.uuidCtr) ∧
      ((spanGo envW clientW "k" fnW cfgW none [] stW).2.sent).getLast?.map
         (fun pl => pl.rawSpan.parentId) = some none ∧
      ((spanGo envW clientW "k" fnW cfgW none [] stW).2.sent).getLast?.map
         (fun pl => pl.rawSpan.id) = some (envW.uuids (stW.uuidCtr + 1))) ∧
     (startGo envW clientW "k" cfgW [] stW).2.1.traceID ≠
       (startGo envW clientW "k" cfgW [] (startGo envW clientW "k" cfgW [] stW).2.2).2.1.traceID) :=
  ⟨by decide, by decide, by decide, by decide, genUUIDs_injective,
   c6_id_assignment envW clientW "k" cfgW fnW parentW stackW stW
     (by decide) (by decide) (by decide) (by decide) genUUIDs_injective⟩

/-- Every exit of the retry loop reports the body marshalled before the
loop started — the body is fixed across attempts. -/
theorem requestLoop_sentBody (serviceURL : String) (cfg : RequestConfig)
    (outcomes : Nat → AttemptOutcome) (body : String) :
    ∀ remaining attempt lastErr waited,
      (requestLoop serviceURL cfg outcomes body remaining attempt lastErr waited).sentBody =
        some body := by
  intro remaining
  induction remaining with
  | zero => intro attempt lastErr waited; rfl
  | succ n ih =>
    intro attempt lastErr waited
    simp only [requestLoop]
    cases houtcome : outcomes attempt with
    | transportError msg => exact ih _ _ _
    | response r =>
      by_cases hst : r.status < 200 ∨ 300 ≤ r.status
      · simp only [hst, if_true]
        exact ih _ _ _
      · simp only [hst, if_false]
        cases r.errField with
        | none => rfl
        | some e => cases r.urlField <;> rfl

/-- Claim C3, corrected: the JSON body transmitted to the collector is
`json.Marshal` of the raw payload — record values are encoded by the
standard library at wire time, and the generic value serializer is not
applied on the delivery path. -/
theorem c3_wire_body_is_raw_marshal (serviceURL : String) (cfg : RequestConfig)
    (outcomes : Nat → AttemptOutcome) (payload : GoValue) (body : String)
    (h : jsonMarshalGo payload = .ok body) :
    (requestGo serviceURL cfg outcomes payload).sentBody = some body := by
  simp [requestGo, h, requestLoop_sentBody]

/-- Witness for the corrected C3 at the concrete span record holding a
raw `time.Time` output value. -/
theorem c3_wire_body_is_raw_marshal_witness :
    jsonMarshalGo payloadC3 = .ok "\x7b\"output\":\"2024-01-15T10:30:00Z\"\x7d" ∧
    (requestGo DefaultServiceURL { timeout := 0, maxRetries := 1, retryDelay := 100 }
        okOutcomes payloadC3).sentBody =
      some "\x7b\"output\":\"2024-01-15T10:30:00Z\"\x7d" :=
  ⟨by rfl,
   c3_wire_body_is_raw_marshal DefaultServiceURL
     { timeout := 0, maxRetries := 1, retryDelay := 100 } okOutcomes payloadC3
     "\x7b\"output\":\"2024-01-15T10:30:00Z\"\x7d" (by rfl)⟩

/-- Counterexample to C3 as stated: for the span record `payloadC3`,
whose `output` is a raw `time.Time`, the body transmitted by `request`
differs from the JSON encoding of the serializer's rendering — the wire
carries the RFC 3339 nanosecond form, the serializer the fixed
millisecond form. -/
theorem c3_counterexample_serializer_not_applied :
    ¬ ((requestGo DefaultServiceURL { timeout := 0, maxRetries := 1, retryDelay := 100 }
        okOutcomes payloadC3).sentBody = some (jsonEncode (serializeValue payloadC3))) := by
  decide

/-- One failing loop iteration: store the attempt's error and retry with
the sleep accounted. -/
theorem requestLoop_step_fail (serviceURL : String) (cfg : RequestConfig)
    (outs : Nat → AttemptOutcome) (body : String) (n attempt : Nat)
    (lastErr : Option String) (waited : Nat)
    (hfail : attemptFails (outs attempt) = true) :
    requestLoop serviceURL cfg outs body (n + 1) attempt lastErr waited =
      requestLoop serviceURL cfg outs body n (attempt + 1)
        (some (attemptErrMsg (outs attempt)))
        (if attempt > 0 then waited + cfg.retryDelay else waited) := by
  simp only [requestLoop]
  cases houtcome : outs attempt with
  | transportError msg => simp [attemptErrMsg, houtcome]
  | response r =>
    rw [houtcome] at hfail
    simp only [attemptFails] at hfail
    by_cases hst : r.status < 200 ∨ 300 ≤ r.status
    · simp [hst, attemptErrMsg, houtcome, httpErrMsg]
    · simp [hst] at hfail

/-- One successful (2xx) loop iteration: return at once with the
response-level result. -/
theorem requestLoop_step_ok (serviceURL : String) (cfg : RequestConfig)
    (outs : Nat → AttemptOutcome) (body : String) (n attempt : Nat)
    (lastErr : Option String) (waited : Nat)
    (hok : attemptFails (outs attempt) = false) :
    requestLoop serviceURL cfg outs body (n + 1) attempt lastErr waited =
      { result := responseResult serviceURL (outs attempt),
        attemptsMade := attempt + 1,
        totalWait := if attempt > 0 then waited + cfg.retryDelay else waited,
        sentBody := some body } := by
  simp only [requestLoop]
  cases houtcome : outs attempt with
  | transportError msg => rw [houtcome] at hok; simp [attemptFails] at hok
  | response r =>
    rw [houtcome] at hok
    simp only [attemptFails] at hok
    by_cases hst : r.status < 200 ∨ 300 ≤ r.status
    · simp [hst] at hok
    · simp only [hst, if_false, responseResult]
      cases r.errField with
      | none => rfl
      | some e => cases r.urlField <;> rfl

/-- Sleep total over `k` iterations that all start past attempt zero. -/
theorem waitSum_pos (cfg : RequestConfig) :
    ∀ (k a : Nat), waitSum cfg (a + 1) k = k * cfg.retryDelay := by
  intro k
  induction k with
  | zero => intro a; simp [waitSum]
  | succ k ih =>
    intro a
    simp only [waitSum, Nat.succ_mul]
    rw [ih (a + 1)]
    simp
    omega

/-- Sleep total over `k + 1` iterations from the zeroth attempt: the
first iteration does not sleep. -/
theorem waitSum_zero (cfg : RequestConfig) (k : Nat) :
    waitSum cfg 0 (k + 1) = k * cfg.retryDelay := by
  simp only [waitSum]
  rw [waitSum_pos cfg k 0]
  simp

/-- When every attempt in the remaining budget fails, the loop runs the
whole budget, sleeps before every non-initial iteration, and returns the
last attempt's error. -/
theorem requestLoop_allFail (serviceURL : String) (cfg : RequestConfig)
    (outs : Nat → AttemptOutcome) (body : String) :
    ∀ (remaining attempt : Nat) (lastErr : Option String) (waited : Nat),
      1 ≤ remaining →
      (∀ j, attempt ≤ j → j < attempt + remaining → attemptFails (outs j) = true) →
      requestLoop serviceURL cfg outs body remaining attempt lastErr waited =
        { result := some (attemptErrMsg (outs (attempt + remaining - 1))),
          attemptsMade := attempt + remaining,
          totalWait := waited + waitSum cfg attempt remaining,
          sentBody := some body } := by
  intro remaining
  induction remaining with
  | zero => intro attempt lastErr waited h1; omega
  | succ n ih =>
    intro attempt lastErr waited h1 hfail
    rw [requestLoop_step_fail serviceURL cfg outs body n attempt lastErr waited
      (hfail attempt (Nat.le_refl _) (by omega))]
    rcases Nat.eq_zero_or_pos n with hn | hn
    · subst hn
      simp only [requestLoop]
      rw [show attempt + 1 - 1 = attempt from by omega]
      by_cases h0 : attempt > 0 <;> simp [waitSum, h0]
    · rw [ih (attempt + 1) (some (attemptErrMsg (outs attempt)))
        (if attempt > 0 then waited + cfg.retryDelay else waited) hn
        (fun j hj1 hj2 => hfail j (by omega) (by omega))]
      rw [show attempt + 1 + n - 1 = attempt + (n + 1) - 1 from by omega]
      by_cases h0 : attempt > 0 <;> simp [waitSum, h0] <;> omega

/-- When the attempts before index `i` all fail and attempt `i` is a 2xx
response, the loop stops right after attempt `i` with the response-level
result, having slept before every non-initial iteration up to `i`. -/
theorem requestLoop_firstSuccess (serviceURL : String) (cfg : RequestConfig)
    (outs : Nat → AttemptOutcome) (body : String) :
    ∀ (remaining attempt : Nat) (lastErr : Option String) (waited i : Nat),
      attempt ≤ i → i < attempt + remaining →
      (∀ j, attempt ≤ j → j < i → attemptFails (outs j) = true) →
      attemptFails (outs i) = false →
      requestLoop serviceURL cfg outs body remaining attempt lastErr waited =
        { result := responseResult serviceURL (outs i),
          attemptsMade := i + 1,
          totalWait := waited + waitSum cfg attempt (i + 1 - attempt),
          sentBody := some body } := by
  intro remaining
  induction remaining with
  | zero => intro attempt lastErr waited i h1 h2; omega
  | succ n ih =>
    intro attempt lastErr waited i hle hlt hfail hok
    by_cases heq : i = attempt
    · subst heq
      rw [requestLoop_step_ok serviceURL cfg outs body n i lastErr waited hok]
      rw [show i + 1 - i = 1 from by omega]
      by_cases h0 : i > 0 <;> simp [waitSum, h0]
    · rw [requestLoop_step_fail serviceURL cfg outs body n attempt lastErr waited
        (hfail attempt (Nat.le_refl _) (by omega))]
      rw [ih (attempt + 1) (some (attemptErrMsg (outs attempt)))
        (if attempt > 0 then waited + cfg.retryDelay else waited) i
        (by omega) (by omega) (fun j hj1 hj2 => hfail j (by omega) hj2) hok]
      rw [show i + 1 - attempt = (i - attempt) + 1 from by omega,
        show i + 1 - (attempt + 1) = i - attempt from by omega]
      by_cases h0 : attempt > 0 <;>
        first
        | (simp [waitSum, h0]; omega)
        | simp [waitSum, h0]

/-- The element-wise embedding is a `List.map`. -/
theorem embedJsonList_eq_map : ∀ xs : List Json, embedJsonList xs = xs.map embedJson := by
  intro xs
  induction xs with
  | nil => rfl
  | cons x rest ih => simp [embedJsonList, ih]

/-- The member-wise embedding is a `List.map`. -/
theorem embedJsonFields_eq_map :
    ∀ fs : List (String × Json),
      embedJsonFields fs = fs.map (fun kv => (kv.1, embedJson kv.2)) := by
  intro fs
  induction fs with
  | nil => rfl
  | cons kv rest ih =>
    obtain ⟨k, v⟩ := kv
    simp [embedJsonFields, ih]

/-- A list of element-wise marshalable values marshals. -/
theorem jsonMarshalList_ok (l : List GoValue)
    (h : ∀ x ∈ l, ∃ s, jsonMarshalGo x = .ok s) :
    ∃ out, jsonMarshalList l = .ok out := by
  induction l with
  | nil => exact ⟨[], rfl⟩
  | cons x rest ih =>
    obtain ⟨s, hs⟩ := h x (List.mem_cons_self _ _)
    obtain ⟨tail, ht⟩ := ih (fun y hy => h y (List.mem_cons_of_mem _ hy))
    exact ⟨s :: tail, by simp [jsonMarshalList, hs, ht]⟩

/-- Map entries with marshalable values marshal. -/
theorem jsonMarshalEntries_ok (l : List (String × GoValue))
    (h : ∀ kv ∈ l, ∃ s, jsonMarshalGo kv.2 = .ok s) :
    ∃ out, jsonMarshalEntries l = .ok out := by
  induction l with
  | nil => exact ⟨[], rfl⟩
  | cons kv rest ih =>
    obtain ⟨s, hs⟩ := h kv (List.mem_cons_self _ _)
    obtain ⟨tail, ht⟩ := ih (fun y hy => h y (List.mem_cons_of_mem _ hy))
    obtain ⟨k, v⟩ := kv
    exact ⟨(k, s) :: tail, by simp_all [jsonMarshalEntries]⟩

/-- Every JSON-safe tree, read back as a Go value, is accepted by the
`encoding/json` marshaller: the serializer codomain is marshalable. -/
theorem jsonMarshalGo_embedJson_ok :
    ∀ (n : Nat) (j : Json), sizeOf j ≤ n → ∃ s, jsonMarshalGo (embedJson j) = .ok s := by
  intro n
  induction n with
  | zero =>
    intro j h
    exfalso
    cases j <;> simp_all
  | succ n ih =>
    intro j hle
    cases j with
    | jnull => exact ⟨"null", rfl⟩
    | jstr s => exact ⟨jsonQuote s, rfl⟩
    | jbool b => exact ⟨if b then "true" else "false", rfl⟩
    | jint m => exact ⟨toString m, rfl⟩
    | jarr xs =>
      have hxs : ∀ x ∈ embedJsonList xs, ∃ s, jsonMarshalGo x = .ok s := by
        intro x hx
        rw [embedJsonList_eq_map] at hx
        obtain ⟨y, hy, rfl⟩ := List.mem_map.mp hx
        apply ih
        have h1 : sizeOf y < sizeOf xs := List.sizeOf_lt_of_mem hy
        have h2 : sizeOf (Json.jarr xs) = 1 + sizeOf xs := by simp
        omega
      obtain ⟨parts, hp⟩ := jsonMarshalList_ok _ hxs
      exact ⟨"[" ++ String.intercalate "," parts ++ "]",
        by simp [embedJson, jsonMarshalGo, hp]⟩
    | jobj fs =>
      have hfs : ∀ kv ∈ embedJsonFields fs, ∃ s, jsonMarshalGo kv.2 = .ok s := by
        intro kv hkv
        rw [embedJsonFields_eq_map] at hkv
        obtain ⟨y, hy, rfl⟩ := List.mem_map.mp hkv
        obtain ⟨k, v⟩ := y
        apply ih
        show sizeOf v ≤ n
        have h1 : sizeOf (k, v) < sizeOf fs := List.sizeOf_lt_of_mem hy
        have h2 : sizeOf (Json.jobj fs) = 1 + sizeOf fs := by simp
        have h3 : sizeOf (k, v) = 1 + sizeOf k + sizeOf v := by simp
        omega
      obtain ⟨parts, hp⟩ := jsonMarshalEntries_ok _ hfs
      exact ⟨"\x7b" ++ String.intercalate ","
          ((sortByKey parts).map (fun kv => jsonQuote kv.1 ++ ":" ++ kv.2)) ++ "\x7d",
        by simp [embedJson, jsonMarshalGo, hp]⟩

/-- Claim C8: `serializeValue` is total — the embedding is accepted by
the termination checker over arbitrarily nested maps, slices, structs and
pointers — and for every input it yields a JSON-safe tree: unrepresentable
values fall back to their text rendering, and the output, read back as a
Go value, always marshals (while raw inputs such as functions make
`json.Marshal` fail). -/
theorem c8_serialize_total :
    (∀ text : String, serializeValue (.vfunc text) = .jstr text) ∧
    (∀ text : String, ∃ e, jsonMarshalGo (.vfunc text) = .error e) ∧
    (∀ v : GoValue, ∃ s, jsonMarshalGo (embedJson (serializeValue v)) = .ok s) := by
  refine ⟨fun text => rfl, fun text => ⟨_, rfl⟩, fun v => ?_⟩
  exact jsonMarshalGo_embedJson_ok (sizeOf (serializeValue v)) _ (Nat.le_refl _)

/-- Claim C9: with an attempt budget of at least one and a payload that
marshals, `request` (a) retries on transport failure or non-2xx, sleeping
the configured delay before every retry, and returns the last observed
error after the whole budget fails; and (b) stops at the first 2xx
response without further retries, returning the body's `error` field as
an error (with the configuration-URL hint when a `url` field is present)
and success when no such field exists. -/
theorem c9_request_retry (serviceURL : String) (cfg : RequestConfig)
    (outs : Nat → AttemptOutcome) (payload : GoValue) (body : String)
    (hmr : 1 ≤ cfg.maxRetries) (hok : jsonMarshalGo payload = .ok body) :
    ((∀ j, j < cfg.maxRetries → attemptFails (outs j) = true) →
      requestGo serviceURL cfg outs payload =
        { result := some (attemptErrMsg (outs (cfg.maxRetries - 1))),
          attemptsMade := cfg.maxRetries,
          totalWait := (cfg.maxRetries - 1) * cfg.retryDelay,
          sentBody := some body }) ∧
    (∀ i, i < cfg.maxRetries → (∀ j, j < i → attemptFails (outs j) = true) →
      attemptFails (outs i) = false →
      requestGo serviceURL cfg outs payload =
        { result := responseResult serviceURL (outs i),
          attemptsMade := i + 1,
          totalWait := i * cfg.retryDelay,
          sentBody := some body }) := by
  obtain ⟨m, hm⟩ : ∃ m, cfg.maxRetries = m + 1 := ⟨cfg.maxRetries - 1, by omega⟩
  constructor
  · intro hall
    simp only [requestGo, hok]
    rw [requestLoop_allFail serviceURL cfg outs body cfg.maxRetries 0 none 0 (by omega)
      (fun j hj1 hj2 => hall j (by omega))]
    rw [hm, waitSum_zero]
    simp
  · intro i hi hprefix hoki
    simp only [requestGo, hok]
    rw [requestLoop_firstSuccess serviceURL cfg outs body cfg.maxRetries 0 none 0 i
      (by omega) (by omega) (fun j hj1 hj2 => hprefix j hj2) hoki]
    rw [show i + 1 - 0 = i + 1 from by omega, waitSum_zero]
    simp

/-- Witness for C9: with a budget of three attempts, one transport
failure followed by a 2xx-with-error stops after the second attempt,
having slept once, and surfaces the application-level error with the
configuration hint. -/
theorem c9_request_retry_witness :
    1 ≤ (RequestConfig.mk 0 3 100).maxRetries ∧
    jsonMarshalGo (GoValue.vstr "p") = .ok "\"p\"" ∧
    (((∀ j, j < (RequestConfig.mk 0 3 100).maxRetries → attemptFails (outsC9 j) = true) →
      requestGo DefaultServiceURL (RequestConfig.mk 0 3 100) outsC9 (GoValue.vstr "p") =
        { result := some (attemptErrMsg (outsC9 ((RequestConfig.mk 0 3 100).maxRetries - 1))),
          attemptsMade := (RequestConfig.mk 0 3 100).maxRetries,
          totalWait := ((RequestConfig.mk 0 3 100).maxRetries - 1) *
            (RequestConfig.mk 0 3 100).retryDelay,
          sentBody := some "\"p\"" }) ∧
     (∀ i, i < (RequestConfig.mk 0 3 100).maxRetries →
        (∀ j, j < i → attemptFails (outsC9 j) = true) → attemptFails (outsC9 i) = false →
        requestGo DefaultServiceURL (RequestConfig.mk 0 3 100) outsC9 (GoValue.vstr "p") =
          { result := responseResult DefaultServiceURL (outsC9 i),
            attemptsMade := i + 1,
            totalWait := i * (RequestConfig.mk 0 3 100).retryDelay,
            sentBody := some "\"p\"" })) :=
  ⟨by decide, by rfl,
   c9_request_retry DefaultServiceURL (RequestConfig.mk 0 3 100) outsC9 (GoValue.vstr "p")
     "\"p\"" (by decide) (by rfl)⟩

end Simforge
